import Mathlib

/-!
Verification of the hash-chained append-only ledger (`accounting.py`, `db.py`).

The ledger state is embedded shallowly: the relational store is a pair of
lists (accounts, transaction events), and every store-level integrity
constraint of `db.py`'s `Tx.__table_args__` is checked at insertion time,
mirroring how PostgreSQL validates each row inside the operation's
transaction; a violated constraint aborts the operation and leaves the
state unchanged (the `AutocommitSessionTransaction` wrapper rolls back on
any exception, so a failed operation is modelled as returning an error and
no new state).

Money is the exact decimal type of the source (`decimal.Decimal`), embedded
as `Money := ℤ`, the integer count of a smallest currency unit: every set of
fixed-precision decimals lies in such a grid, and the engine and the store
constraints use only addition, negation and order comparisons on amounts,
which the grid embedding preserves and reflects.  Opaque 128-bit identifiers (`uuid4` account ids and idempotency
keys) are embedded as `Nat` supplied by the caller, modelling the externally
generated fresh UUIDs.

Transaction ids: in the source, `Tx.tx_hash` is the SHA-256 of a canonical
`key=value` serialization of the event's content.  SHA-256 is an external
library (`hashlib`), relied upon to be collision-free in practice, so the
digest is modelled as an injective content digest: `TxId` records exactly
the fields that `Tx.tx_hash` serializes — and only those.  In particular
`group_tx_id` is NOT part of the digest: the statement at db.py:239-240
(`group_tx_id=(self.group_tx_id or b'').hex(),`) binds a dead local tuple
instead of extending the `data` dictionary, so `group_tx_id` never reaches
the hash for any event type.  `group_prev_pending_amount` is likewise not
serialized by the source.  The literal serialized string is embedded
separately (`txHashData`, `txHashInput`) for the hash-content claims.
-/

namespace Ktti

/-- Signed exact amounts (`decimal.Decimal` in the source), as the integer
count of a smallest currency unit. -/
abbrev Money := ℤ

instance {e a : Type} [DecidableEq e] [DecidableEq a] : DecidableEq (Except e a) :=
  fun x y =>
    match x, y with
    | .ok x', .ok y' =>
      match decEq x' y' with
      | isTrue h => isTrue (by rw [h])
      | isFalse h => isFalse (by intro hc; cases hc; exact h rfl)
    | .error x', .error y' =>
      match decEq x' y' with
      | isTrue h => isTrue (by rw [h])
      | isFalse h => isFalse (by intro hc; cases hc; exact h rfl)
    | .ok _, .error _ => isFalse (by intro hc; cases hc)
    | .error _, .ok _ => isFalse (by intro hc; cases hc)

/-- Event kinds, from `db.TxType`. -/
inductive TxType where
  | NEW_ACCOUNT
  | PENDING
  | REFUND
  | SETTLEMENT
deriving DecidableEq, Repr

/-- Content digest standing for the 32-byte SHA-256 id.  The constructor
records, in order, the fields serialized by `Tx.tx_hash`: idempotency_key,
account_id, type, amount, pending_amount, prev_tx_id, group_prev_tx_id,
prev_current_balance, prev_available_balance, current_balance,
available_balance.  `nil` models the empty byte string that `tx_hash`
substitutes for a NULL id (`(... or b'').hex()`). -/
inductive TxId where
  | nil : TxId
  | mk : Nat → Nat → TxType → Money → Money → TxId → TxId → Money → Money → Money → Money → TxId
deriving DecidableEq, Repr

/-- A row of the `account` table. -/
structure AccountRow where
  id : Nat
  name : String
deriving DecidableEq, Repr

/-- A row of the `tx` table (`db.Tx`). -/
structure Tx where
  id : TxId
  idempotency_key : Nat
  account_id : Nat
  type : TxType
  amount : Money
  pending_amount : Money
  group_tx_id : Option TxId
  group_prev_tx_id : Option TxId
  group_prev_pending_amount : Money
  prev_tx_id : Option TxId
  prev_current_balance : Money
  prev_available_balance : Money
  current_balance : Money
  available_balance : Money
deriving DecidableEq, Repr

/-- The relational store: the `account` and `tx` tables. -/
structure Db where
  accounts : List AccountRow
  txs : List Tx
deriving DecidableEq, Repr

/-- The digest of an event's content (`Tx.tx_hash`).  Reads the stored row:
for every event kind the fields serialized by the source are final before
`_set_transaction_hash` runs, and the fields the source mutates afterwards
(`group_tx_id` on a root PENDING, via `_set_group_tx_root`) are not part of
the serialization, so hashing the finished row is equivalent. -/
def txHashOf (t : Tx) : TxId :=
  .mk t.idempotency_key t.account_id t.type t.amount t.pending_amount
    (t.prev_tx_id.getD .nil) (t.group_prev_tx_id.getD .nil)
    t.prev_current_balance t.prev_available_balance
    t.current_balance t.available_balance

/-- Failure kinds.  Python exception classes are mapped one-to-one:
`Ledger.InsufficientFund`; the `ValueError`s of `_get_group_tx`
(`unknownGroup`, `notAGroupRoot`), of the refund amount check
(`invalidRefundAmount`) and of the credit-group check (`refundNotCredit`);
the `AssertionError` of `assert amount` on a zero refund
(`zeroRefundAssert`); the `AssertionError` of `_add_to_account` when the
supplied prev id resolves to no row (`noSuchPrev`); the unpacking failure
of `get_latest_transaction` / `get_latest_group_transaction` when the set
difference is not a singleton (`noUniqueHead`); and `IntegrityError`
carrying the violated constraint names (`integrity`).  `duplicateName` is
the uniqueness violation on `account.name`. -/
inductive Err where
  | duplicateName
  | insufficientFund
  | unknownGroup
  | notAGroupRoot
  | invalidRefundAmount
  | refundNotCredit
  | zeroRefundAssert
  | noSuchPrev
  | noUniqueHead
  | integrity (violations : List String)
deriving DecidableEq, Repr

/-- Rows of the `tx` table belonging to one account. -/
def accountTxs (db : Db) (aid : Nat) : List Tx :=
  db.txs.filter (fun t => decide (t.account_id = aid))

/-- `Ledger.get_latest_transaction`: the event of the account whose id is
never referenced as another event's `prev_tx_id`; `none` when the set
difference `tx_ids - prev_tx_ids` is not a singleton (the source's
destructuring assignment raises). -/
def getLatestTransaction (db : Db) (aid : Nat) : Option Tx :=
  match ((accountTxs db aid).map (fun t => t.id)).dedup.filter
      (fun i => decide (i ∉ (accountTxs db aid).filterMap (fun t => t.prev_tx_id))) with
  | [i] => db.txs.find? (fun t => decide (t.id = i))
  | _ => none

/-- Rows of the `tx` table belonging to one transaction group. -/
def groupTxs (db : Db) (g : TxId) : List Tx :=
  db.txs.filter (fun t => decide (t.group_tx_id = some g))

/-- `Ledger.get_latest_group_transaction`: the event of the group whose id
is never referenced as another group member's `group_prev_tx_id`. -/
def getLatestGroupTransaction (db : Db) (groupTx : Tx) : Option Tx :=
  match ((groupTxs db groupTx.id).map (fun t => t.id)).dedup.filter
      (fun i => decide
        (i ∉ (groupTxs db groupTx.id).filterMap (fun t => t.group_prev_tx_id))) with
  | [i] => db.txs.find? (fun t => decide (t.id = i))
  | _ => none

/-- `Ledger._ensure_prev_tx_id` followed by `_add_to_account`'s
`session.get` + `assert prev_tx is not None`: resolve the supplied (or
defaulted) previous transaction id to its row. -/
def resolvePrev (db : Db) (aid : Nat) (prevTxId : Option TxId) : Except Err Tx :=
  match prevTxId with
  | some p =>
    match db.txs.find? (fun t => decide (t.id = p)) with
    | some prev => .ok prev
    | none => .error .noSuchPrev
  | none =>
    match getLatestTransaction db aid with
    | some t =>
      match db.txs.find? (fun x => decide (x.id = t.id)) with
      | some prev => .ok prev
      | none => .error .noSuchPrev
    | none => .error .noUniqueHead

/-- The integrity constraints of `db.Tx.__table_args__` (plus the primary
key, the `account_id` foreign key and the column uniqueness constraints),
evaluated for a candidate row against the current table contents.  Each
entry is the constraint's name (from `db.py` where the source names it)
paired with `true` when the candidate row VIOLATES it.  Foreign keys use
SQL MATCH SIMPLE semantics: they are enforced only when every referencing
column is non-NULL.  Uniqueness is checked against the already-stored rows. -/
def txChecks (db : Db) (t : Tx) : List (String × Bool) :=
  [ ("tx_pkey",
      db.txs.any (fun e => decide (e.id = t.id))),
    ("tx_idempotency_key_unique",
      db.txs.any (fun e => decide (e.idempotency_key = t.idempotency_key))),
    ("tx_prev_tx_id_unique",
      decide (t.prev_tx_id ≠ none) &&
        db.txs.any (fun e => decide (e.prev_tx_id = t.prev_tx_id))),
    ("tx_account_id_fkey",
      !(db.accounts.any (fun a => decide (a.id = t.account_id)))),
    ("tx_account_prev_fkey",
      match t.prev_tx_id with
      | none => false
      | some p => !(db.txs.any (fun e =>
          decide (e.account_id = t.account_id ∧ e.id = p)))),
    ("tx_group_fkey",
      match t.group_tx_id, t.group_prev_tx_id with
      | some g, some gp => !(db.txs.any (fun e =>
          decide (e.account_id = t.account_id ∧ e.group_tx_id = some g ∧ e.id = gp)))
      | _, _ => false),
    ("tx_group_prev_pending_fkey",
      match t.group_prev_tx_id with
      | none => false
      | some gp => !(db.txs.any (fun e =>
          decide (e.id = gp ∧ e.pending_amount = t.group_prev_pending_amount)))),
    ("tx_prev_balances_fkey",
      match t.prev_tx_id with
      | none => false
      | some p => !(db.txs.any (fun e =>
          decide (e.id = p ∧ e.current_balance = t.prev_current_balance ∧
                  e.available_balance = t.prev_available_balance)))),
    ("tx_only_one_new_account_tx_per_account_id",
      decide (t.type = .NEW_ACCOUNT) &&
        db.txs.any (fun e => decide (e.type = .NEW_ACCOUNT ∧ e.account_id = t.account_id))),
    ("tx_only_one_settlement_per_pending",
      decide (t.type = .SETTLEMENT) &&
        db.txs.any (fun e => decide (e.type = .SETTLEMENT ∧ e.group_tx_id = t.group_tx_id))),
    ("tx_require_prev_tx_id",
      decide (t.type ≠ .NEW_ACCOUNT ∧ t.prev_tx_id = none)),
    ("tx_require_group_prev_tx_id",
      decide (t.type ≠ .NEW_ACCOUNT ∧ t.type ≠ .PENDING ∧ t.group_prev_tx_id = none)),
    ("tx_require_group_tx_id",
      decide (t.type ≠ .NEW_ACCOUNT ∧ t.group_tx_id = none)),
    ("tx_positive_current_balance",
      decide (t.current_balance < 0)),
    ("tx_positive_available_balance",
      decide (t.available_balance < 0)),
    ("tx_available_always_lt_current",
      decide (t.current_balance < t.available_balance)),
    ("tx_new_account_starts_with_zero_balance",
      decide (t.type = .NEW_ACCOUNT ∧
        ¬(t.amount = 0 ∧ t.pending_amount = 0 ∧ t.current_balance = 0 ∧
          t.available_balance = 0 ∧ t.prev_current_balance = 0 ∧
          t.prev_available_balance = 0))),
    ("tx_pending_amount_equals_amount",
      decide (t.type = .SETTLEMENT ∧ t.amount ≠ t.pending_amount)),
    ("tx_pending_debit_does_not_change_balance",
      decide (t.type = .PENDING ∧ 0 < t.amount ∧
        ¬(t.pending_amount = t.amount ∧ t.current_balance = t.prev_current_balance ∧
          t.available_balance = t.prev_available_balance))),
    ("tx_pending_credit_reduces_available_balance",
      decide (t.type = .PENDING ∧ t.amount < 0 ∧
        ¬(t.pending_amount = t.amount ∧ t.current_balance = t.prev_current_balance ∧
          t.available_balance = t.prev_available_balance + t.amount))),
    ("tx_refund_debit_increases_balances",
      decide (t.type = .SETTLEMENT ∧ 0 < t.amount ∧
        ¬(t.current_balance = t.prev_current_balance + t.pending_amount ∧
          t.available_balance = t.prev_available_balance + t.pending_amount))),
    ("tx_refund_credit_reduces_current_balance",
      decide (t.type = .SETTLEMENT ∧ t.amount < 0 ∧
        ¬(t.current_balance = t.prev_current_balance + t.pending_amount ∧
          t.available_balance = t.prev_available_balance))),
    ("tx_refund_reduces_pending_amount",
      decide (t.type = .REFUND ∧
        ¬(0 < t.amount ∧ t.pending_amount ≤ 0 ∧
          t.pending_amount = t.group_prev_pending_amount + t.amount))) ]

/-- Names of the constraints the candidate row violates. -/
def txViolations (db : Db) (t : Tx) : List String :=
  ((txChecks db t).filter (fun c => c.2)).map (fun c => c.1)

/-- Insert a row into the `tx` table: the store accepts it only when no
integrity constraint is violated, otherwise the enclosing transaction is
rolled back with an `IntegrityError` naming the violations. -/
def insertTx (db : Db) (t : Tx) : Except Err Db :=
  match txViolations db t with
  | [] => .ok { db with txs := db.txs ++ [t] }
  | vs => .error (.integrity vs)

/-- Common tail of the three append operations: flush/commit the built row
and return its id. -/
def finishInsert (db : Db) (t : Tx) : Except Err (TxId × Db) :=
  match insertTx db t with
  | .ok db' => .ok (t.id, db')
  | .error e => .error e

/-- The NEW_ACCOUNT row built by `create_account`, before hashing. -/
def newAccountTx0 (accountId idemKey : Nat) : Tx :=
  { id := .nil, idempotency_key := idemKey, account_id := accountId,
    type := .NEW_ACCOUNT, amount := 0, pending_amount := 0,
    group_tx_id := none, group_prev_tx_id := none,
    group_prev_pending_amount := 0, prev_tx_id := none,
    prev_current_balance := 0, prev_available_balance := 0,
    current_balance := 0, available_balance := 0 }

/-- The NEW_ACCOUNT row after `_set_transaction_hash`. -/
def newAccountTx (accountId idemKey : Nat) : Tx :=
  { newAccountTx0 accountId idemKey with
    id := txHashOf (newAccountTx0 accountId idemKey) }

/-- `Ledger.create_account`.  `accountId` stands for the `uuid4()` default
of `Account.id` and `idemKey` for the resolved idempotency key, both
externally generated opaque values. -/
def createAccount (db : Db) (accountId : Nat) (name : String) (idemKey : Nat) :
    Except Err (Nat × Db) :=
  if db.accounts.any (fun a => decide (a.name = name)) then .error .duplicateName
  else if db.accounts.any (fun a => decide (a.id = accountId)) then
    .error (.integrity ["account_pkey"])
  else
    match insertTx { db with accounts := db.accounts ++ [⟨accountId, name⟩] }
        (newAccountTx accountId idemKey) with
    | .ok db' => .ok (accountId, db')
    | .error e => .error e

/-- The PENDING row built by `create_pending_transaction` before hashing:
`_add_to_account` copies the predecessor's balances, then a credit
(`amount < 0`) reduces the available balance. -/
def pendingTx0 (prev : Tx) (accountId : Nat) (amount : Money) (idemKey : Nat) : Tx :=
  { id := .nil, idempotency_key := idemKey, account_id := accountId,
    type := .PENDING, amount := amount, pending_amount := amount,
    group_tx_id := none, group_prev_tx_id := none,
    group_prev_pending_amount := 0, prev_tx_id := some prev.id,
    prev_current_balance := prev.current_balance,
    prev_available_balance := prev.available_balance,
    current_balance := prev.current_balance,
    available_balance :=
      if amount < 0 then prev.available_balance + amount
      else prev.available_balance }

/-- The PENDING row after `_set_transaction_hash` and `_set_group_tx_root`
(the event becomes its own group root; `group_tx_id` is not serialized, so
hashing before or after setting it is equivalent). -/
def pendingTx (prev : Tx) (accountId : Nat) (amount : Money) (idemKey : Nat) : Tx :=
  { pendingTx0 prev accountId amount idemKey with
    id := txHashOf (pendingTx0 prev accountId amount idemKey),
    group_tx_id := some (txHashOf (pendingTx0 prev accountId amount idemKey)) }

/-- `Ledger.create_pending_transaction`: a credit is rejected when it would
drive the available balance below zero. -/
def createPendingTransaction (db : Db) (accountId : Nat) (amount : Money)
    (idemKey : Nat) (prevTxId : Option TxId) : Except Err (TxId × Db) :=
  match resolvePrev db accountId prevTxId with
  | .error e => .error e
  | .ok prev =>
    if (pendingTx0 prev accountId amount idemKey).available_balance < 0 then
      .error .insufficientFund
    else finishInsert db (pendingTx prev accountId amount idemKey)

/-- The SETTLEMENT row: amount and pending amount are the group head's
residual `pending_amount`; the current balance absorbs it, and for a debit
group (`group_tx.is_debit`, i.e. root `amount > 0`) the available balance
absorbs it as well. -/
def settleTx0 (prev ghead groupTx : Tx) (idemKey : Nat) : Tx :=
  { id := .nil, idempotency_key := idemKey,
    account_id := groupTx.account_id, type := .SETTLEMENT,
    amount := ghead.pending_amount, pending_amount := ghead.pending_amount,
    group_tx_id := some groupTx.id, group_prev_tx_id := some ghead.id,
    group_prev_pending_amount := ghead.pending_amount,
    prev_tx_id := some prev.id,
    prev_current_balance := prev.current_balance,
    prev_available_balance := prev.available_balance,
    current_balance := prev.current_balance + ghead.pending_amount,
    available_balance :=
      if 0 < groupTx.amount then prev.available_balance + ghead.pending_amount
      else prev.available_balance }

/-- The SETTLEMENT row after `_set_transaction_hash`. -/
def settleTx (prev ghead groupTx : Tx) (idemKey : Nat) : Tx :=
  { settleTx0 prev ghead groupTx idemKey with
    id := txHashOf (settleTx0 prev ghead groupTx idemKey) }

/-- `Ledger.settle_transaction`. -/
def settleTransaction (db : Db) (groupTxId : TxId) (idemKey : Nat)
    (prevTxId : Option TxId) : Except Err (TxId × Db) :=
  match db.txs.find? (fun t => decide (t.id = groupTxId)) with
  | none => .error .unknownGroup
  | some groupTx =>
    if groupTx.type ≠ .PENDING then .error .notAGroupRoot
    else
      match resolvePrev db groupTx.account_id prevTxId with
      | .error e => .error e
      | .ok prev =>
        match getLatestGroupTransaction db groupTx with
        | none => .error .noUniqueHead
        | some ghead => finishInsert db (settleTx prev ghead groupTx idemKey)

/-- The REFUND row: the new pending amount is the group head's pending
amount plus the refund, and the refund is credited back to the available
balance; the current balance is untouched. -/
def refundTx0 (prev ghead groupTx : Tx) (amount : Money) (idemKey : Nat) : Tx :=
  { id := .nil, idempotency_key := idemKey,
    account_id := groupTx.account_id, type := .REFUND,
    amount := amount, pending_amount := ghead.pending_amount + amount,
    group_tx_id := some groupTx.id, group_prev_tx_id := some ghead.id,
    group_prev_pending_amount := ghead.pending_amount,
    prev_tx_id := some prev.id,
    prev_current_balance := prev.current_balance,
    prev_available_balance := prev.available_balance,
    current_balance := prev.current_balance,
    available_balance := prev.available_balance + amount }

/-- The REFUND row after `_set_transaction_hash`. -/
def refundTx (prev ghead groupTx : Tx) (amount : Money) (idemKey : Nat) : Tx :=
  { refundTx0 prev ghead groupTx amount idemKey with
    id := txHashOf (refundTx0 prev ghead groupTx amount idemKey) }

/-- `Ledger.refund_pending_transaction`: a partial refund of a credit
group.  A zero amount trips `assert amount`; a negative amount raises
"Refund amount must be positive"; a non-credit group root raises "Can only
refund credit transaction.".  The engine itself never checks for
over-refund — that is left to the store's
`tx_refund_reduces_pending_amount` constraint. -/
def refundPendingTransaction (db : Db) (groupTxId : TxId) (amount : Money)
    (idemKey : Nat) (prevTxId : Option TxId) : Except Err (TxId × Db) :=
  if amount = 0 then .error .zeroRefundAssert
  else if amount ≤ 0 then .error .invalidRefundAmount
  else
    match db.txs.find? (fun t => decide (t.id = groupTxId)) with
    | none => .error .unknownGroup
    | some groupTx =>
      if groupTx.type ≠ .PENDING then .error .notAGroupRoot
      else
        match resolvePrev db groupTx.account_id prevTxId with
        | .error e => .error e
        | .ok prev =>
          if ¬ groupTx.amount < 0 then .error .refundNotCredit
          else
            match getLatestGroupTransaction db groupTx with
            | none => .error .noUniqueHead
            | some ghead =>
              finishInsert db (refundTx prev ghead groupTx amount idemKey)

/-- The three chain-appending write operations (a `create_account` has no
`prev_tx_id` parameter and is not an append). -/
inductive WriteOp where
  | pending (accountId : Nat) (amount : Money) (idemKey : Nat)
  | settle (groupTxId : TxId) (idemKey : Nat)
  | refund (groupTxId : TxId) (amount : Money) (idemKey : Nat)
deriving DecidableEq, Repr

/-- Dispatch a write operation with an explicit or defaulted `prev_tx_id`. -/
def runWrite (db : Db) (op : WriteOp) (prevTxId : Option TxId) :
    Except Err (TxId × Db) :=
  match op with
  | .pending aid amount k => createPendingTransaction db aid amount k prevTxId
  | .settle gid k => settleTransaction db gid k prevTxId
  | .refund gid amount k => refundPendingTransaction db gid amount k prevTxId

/-- Rendering of `str(TxType…)` on a Python enum member. -/
def txTypeStr : TxType → String
  | .NEW_ACCOUNT => "TxType.NEW_ACCOUNT"
  | .PENDING => "TxType.PENDING"
  | .REFUND => "TxType.REFUND"
  | .SETTLEMENT => "TxType.SETTLEMENT"

/-- Rendering of `str(Decimal(x).normalize())`: the canonical (trailing-zero
free, hence injective) decimal string of an amount. -/
def moneyStr (q : Money) : String := toString q

/-- Rendering of `(tx_id or b'').hex()`: NULL becomes the empty string and a
real 32-byte digest becomes its (injective) lowercase-hex spelling, modelled
by an injective rendering of the digest. -/
def hexOpt : Option TxId → String
  | none => ""
  | some i => reprStr i

/-- The `data` dictionary built by `Tx.tx_hash` (db.py:226-240): the eleven
`key=value` entries that are always present.  The subsequent statement
`if self.type not in (TxType.NEW_ACCOUNT, TxType.PENDING): group_tx_id=(...)`
binds a local variable (a one-element tuple) and never touches `data`, so no
`group_tx_id` entry is ever added, for any event type. -/
def txHashData (t : Tx) : List (String × String) :=
  [ ("idempotency_key", toString t.idempotency_key),
    ("account_id", toString t.account_id),
    ("type", txTypeStr t.type),
    ("amount", moneyStr t.amount),
    ("pending_amount", moneyStr t.pending_amount),
    ("prev_tx_id", hexOpt t.prev_tx_id),
    ("group_prev_tx_id", hexOpt t.group_prev_tx_id),
    ("prev_current_balance", moneyStr t.prev_current_balance),
    ("prev_available_balance", moneyStr t.prev_available_balance),
    ("current_balance", moneyStr t.current_balance),
    ("available_balance", moneyStr t.available_balance) ]

/-- The canonical serialization that `Tx.tx_hash` feeds to SHA-256: the
entries of `data` sorted by key and joined as `key=value` lines. -/
def txHashInput (t : Tx) : String :=
  "\n".intercalate
    (((txHashData t).mergeSort (fun a b => decide (a.1 ≤ b.1))).map
      (fun kv => kv.1 ++ "=" ++ kv.2))

/-- The ledger states reachable from an empty store by the four API
operations, over all choices of the externally supplied opaque values
(account uuids, idempotency keys) and optimistic-lock arguments. -/
inductive Reachable : Db → Prop where
  | empty : Reachable { accounts := [], txs := [] }
  | newAccount {db : Db} (aid : Nat) (name : String) (k : Nat) {db' : Db} :
      Reachable db → (∃ r, createAccount db aid name k = .ok (r, db')) →
      Reachable db'
  | pending {db : Db} (aid : Nat) (amount : Money) (k : Nat) (p : Option TxId)
      {db' : Db} :
      Reachable db →
      (∃ r, createPendingTransaction db aid amount k p = .ok (r, db')) →
      Reachable db'
  | settle {db : Db} (gid : TxId) (k : Nat) (p : Option TxId) {db' : Db} :
      Reachable db → (∃ r, settleTransaction db gid k p = .ok (r, db')) →
      Reachable db'
  | refund {db : Db} (gid : TxId) (amount : Money) (k : Nat) (p : Option TxId)
      {db' : Db} :
      Reachable db →
      (∃ r, refundPendingTransaction db gid amount k p = .ok (r, db')) →
      Reachable db'

theorem insertTx_ok {db : Db} {t : Tx} {db' : Db} (h : insertTx db t = .ok db') :
    txViolations db t = [] ∧ db' = { db with txs := db.txs ++ [t] } := by
  unfold insertTx at h
  split at h
  next hv => exact ⟨hv, (Except.ok.inj h).symm⟩
  next l hv => simp at h

theorem insertTx_err {db : Db} {t : Tx} {e : Err} (h : insertTx db t = .error e) :
    e = .integrity (txViolations db t) ∧ txViolations db t ≠ [] := by
  unfold insertTx at h
  split at h
  next hv => simp at h
  next l hv => exact ⟨(Except.error.inj h).symm, fun hc => hv hc⟩

theorem finishInsert_ok {db : Db} {t : Tx} {r : TxId} {db' : Db}
    (h : finishInsert db t = .ok (r, db')) :
    txViolations db t = [] ∧ r = t.id ∧ db' = { db with txs := db.txs ++ [t] } := by
  unfold finishInsert at h
  cases hi : insertTx db t with
  | ok d =>
    obtain ⟨hv, hd⟩ := insertTx_ok hi
    simp only [hi, Except.ok.injEq, Prod.mk.injEq] at h
    exact ⟨hv, h.1.symm, by rw [← h.2, hd]⟩
  | error e => simp [hi] at h

theorem finishInsert_err {db : Db} {t : Tx} {e : Err}
    (h : finishInsert db t = .error e) :
    e = .integrity (txViolations db t) ∧ txViolations db t ≠ [] := by
  unfold finishInsert at h
  cases hi : insertTx db t with
  | ok d => simp [hi] at h
  | error e' =>
    simp only [hi, Except.error.injEq] at h
    exact h ▸ insertTx_err hi

theorem txViolations_nil_iff {db : Db} {t : Tx} :
    txViolations db t = [] ↔ ∀ c ∈ txChecks db t, c.2 = false := by
  unfold txViolations
  rw [List.map_eq_nil_iff, List.filter_eq_nil_iff]
  constructor
  · intro h c hc; simpa using h c hc
  · intro h c hc; simp [h c hc]

theorem mem_txViolations {db : Db} {t : Tx} {c : String × Bool}
    (hc : c ∈ txChecks db t) (ht : c.2 = true) : c.1 ∈ txViolations db t :=
  List.mem_map_of_mem _ (List.mem_filter.mpr ⟨hc, ht⟩)

theorem checks_false {db : Db} {t : Tx} (hv : txViolations db t = [])
    {c : String × Bool} (hc : c ∈ txChecks db t) : c.2 = false :=
  txViolations_nil_iff.mp hv c hc

theorem checks_bal {db : Db} {t : Tx} (hv : txViolations db t = []) :
    0 ≤ t.available_balance ∧ t.available_balance ≤ t.current_balance := by
  have h1 := checks_false hv
    (c := ("tx_positive_available_balance", decide (t.available_balance < 0)))
    (by simp [txChecks])
  have h2 := checks_false hv
    (c := ("tx_available_always_lt_current",
           decide (t.current_balance < t.available_balance)))
    (by simp [txChecks])
  simp only [decide_eq_false_iff_not, not_lt] at h1 h2
  exact ⟨h1, h2⟩

theorem checks_pkey {db : Db} {t : Tx} (hv : txViolations db t = []) :
    ∀ e ∈ db.txs, e.id ≠ t.id := by
  have h := checks_false hv
    (c := ("tx_pkey", db.txs.any (fun e => decide (e.id = t.id))))
    (by simp [txChecks])
  intro e he
  simpa using List.any_eq_false.mp h e he

theorem checks_prev_unique {db : Db} {t : Tx} (hv : txViolations db t = [])
    (hp : t.prev_tx_id ≠ none) : ∀ e ∈ db.txs, e.prev_tx_id ≠ t.prev_tx_id := by
  have h := checks_false hv
    (c := ("tx_prev_tx_id_unique",
           decide (t.prev_tx_id ≠ none) &&
             db.txs.any (fun e => decide (e.prev_tx_id = t.prev_tx_id))))
    (by simp [txChecks])
  rw [decide_eq_true hp, Bool.true_and] at h
  intro e he
  simpa using List.any_eq_false.mp h e he

theorem checks_account_prev {db : Db} {t : Tx} {p : TxId}
    (hv : txViolations db t = []) (hp : t.prev_tx_id = some p) :
    ∃ e ∈ db.txs, e.account_id = t.account_id ∧ e.id = p := by
  have h := checks_false hv
    (c := ("tx_account_prev_fkey",
           match t.prev_tx_id with
           | none => false
           | some p => !(db.txs.any (fun e =>
               decide (e.account_id = t.account_id ∧ e.id = p)))))
    (by simp [txChecks])
  rw [hp] at h
  simp only [Bool.not_eq_false', List.any_eq_true, decide_eq_true_eq] at h
  exact h

theorem checks_one_settlement {db : Db} {t : Tx} (hv : txViolations db t = [])
    (ht : t.type = .SETTLEMENT) :
    ∀ e ∈ db.txs, ¬(e.type = .SETTLEMENT ∧ e.group_tx_id = t.group_tx_id) := by
  have h := checks_false hv
    (c := ("tx_only_one_settlement_per_pending",
           decide (t.type = .SETTLEMENT) &&
             db.txs.any (fun e =>
               decide (e.type = .SETTLEMENT ∧ e.group_tx_id = t.group_tx_id))))
    (by simp [txChecks])
  rw [decide_eq_true ht, Bool.true_and] at h
  intro e he
  simpa using List.any_eq_false.mp h e he

theorem checks_refund {db : Db} {t : Tx} (hv : txViolations db t = [])
    (ht : t.type = .REFUND) :
    0 < t.amount ∧ t.pending_amount ≤ 0 ∧
      t.pending_amount = t.group_prev_pending_amount + t.amount := by
  have h := checks_false hv
    (c := ("tx_refund_reduces_pending_amount",
           decide (t.type = .REFUND ∧
             ¬(0 < t.amount ∧ t.pending_amount ≤ 0 ∧
               t.pending_amount = t.group_prev_pending_amount + t.amount))))
    (by simp [txChecks])
  rw [decide_eq_false_iff_not] at h
  by_contra hc
  exact h ⟨ht, hc⟩

theorem resolvePrev_mem {db : Db} {aid : Nat} {p? : Option TxId} {prev : Tx}
    (h : resolvePrev db aid p? = .ok prev) : prev ∈ db.txs := by
  unfold resolvePrev at h
  split at h
  · split at h
    next hf => obtain rfl := Except.ok.inj h
               exact List.mem_of_find?_eq_some hf
    next => simp at h
  · split at h
    next t hl =>
      split at h
      next hf => obtain rfl := Except.ok.inj h
                 exact List.mem_of_find?_eq_some hf
      next => simp at h
    next => simp at h

theorem resolvePrev_id {db : Db} {aid : Nat} {p : TxId} {prev : Tx}
    (h : resolvePrev db aid (some p) = .ok prev) : prev.id = p := by
  unfold resolvePrev at h
  split at h
  next p' hf =>
    obtain rfl : p = p' := Option.some.inj hf
    split at h
    next hfind => obtain rfl := Except.ok.inj h
                  simpa using List.find?_some hfind
    next => simp at h
  next hf => exact absurd hf (by simp)

theorem getLatestGroup_spec {db : Db} {gt ghead : Tx}
    (hnd : (db.txs.map (fun t => t.id)).Nodup)
    (h : getLatestGroupTransaction db gt = some ghead) :
    ghead ∈ db.txs ∧ ghead.group_tx_id = some gt.id ∧
      ¬ ∃ x ∈ db.txs, x.group_tx_id = some gt.id ∧
          x.group_prev_tx_id = some ghead.id := by
  unfold getLatestGroupTransaction at h
  split at h
  next i hsing =>
    have hmem : ghead ∈ db.txs := List.mem_of_find?_eq_some h
    have hid : ghead.id = i := by simpa using List.find?_some h
    have hiin : i ∈ ((groupTxs db gt.id).map (fun t => t.id)).dedup.filter
        (fun i => decide
          (i ∉ (groupTxs db gt.id).filterMap (fun t => t.group_prev_tx_id))) := by
      rw [hsing]; exact List.mem_singleton_self i
    obtain ⟨hin, hq⟩ := List.mem_filter.mp hiin
    obtain ⟨m, hm, hmid⟩ := List.mem_map.mp (List.mem_dedup.mp hin)
    obtain ⟨hmtxs, hmg⟩ := List.mem_filter.mp hm
    have hmg' : m.group_tx_id = some gt.id := of_decide_eq_true hmg
    have hme : m = ghead :=
      List.inj_on_of_nodup_map hnd hmtxs hmem (by rw [hmid, hid])
    have hnp : i ∉ (groupTxs db gt.id).filterMap (fun t => t.group_prev_tx_id) :=
      of_decide_eq_true hq
    refine ⟨hmem, hme ▸ hmg', ?_⟩
    rintro ⟨x, hx, hxg, hxp⟩
    exact hnp (List.mem_filterMap.mpr
      ⟨x, List.mem_filter.mpr ⟨hx, decide_eq_true hxg⟩, by rw [hxp, hid]⟩)
  next => simp at h

theorem createAccount_ok {db : Db} {aid : Nat} {name : String} {k r : Nat}
    {db' : Db} (h : createAccount db aid name k = .ok (r, db')) :
    (∀ a ∈ db.accounts, a.name ≠ name) ∧ r = aid ∧
      txViolations { db with accounts := db.accounts ++ [⟨aid, name⟩] }
        (newAccountTx aid k) = [] ∧
      db' = { accounts := db.accounts ++ [⟨aid, name⟩],
              txs := db.txs ++ [newAccountTx aid k] } := by
  unfold createAccount at h
  split at h
  next => simp at h
  next hdup =>
    split at h
    next => simp at h
    next hpk =>
      have hnames : ∀ a ∈ db.accounts, a.name ≠ name := by
        intro a ha hn
        exact hdup (List.any_eq_true.mpr ⟨a, ha, decide_eq_true hn⟩)
      cases hi : insertTx { db with accounts := db.accounts ++ [⟨aid, name⟩] }
          (newAccountTx aid k) with
      | ok d =>
        obtain ⟨hv, hd⟩ := insertTx_ok hi
        simp only [hi, Except.ok.injEq, Prod.mk.injEq] at h
        refine ⟨hnames, h.1.symm, hv, ?_⟩
        rw [← h.2, hd]
      | error e => simp [hi] at h

theorem createPending_ok {db : Db} {aid : Nat} {amount : Money} {k : Nat}
    {p? : Option TxId} {r : TxId} {db' : Db}
    (h : createPendingTransaction db aid amount k p? = .ok (r, db')) :
    ∃ prev, resolvePrev db aid p? = .ok prev ∧
      ¬ (pendingTx0 prev aid amount k).available_balance < 0 ∧
      txViolations db (pendingTx prev aid amount k) = [] ∧
      r = (pendingTx prev aid amount k).id ∧
      db' = { db with txs := db.txs ++ [pendingTx prev aid amount k] } := by
  unfold createPendingTransaction at h
  split at h
  next => simp at h
  next prev hres =>
    split at h
    next => simp at h
    next hab =>
      obtain ⟨hv, hr, hd⟩ := finishInsert_ok h
      exact ⟨prev, hres, hab, hv, hr, hd⟩

theorem settle_ok {db : Db} {gid : TxId} {k : Nat} {p? : Option TxId}
    {r : TxId} {db' : Db} (h : settleTransaction db gid k p? = .ok (r, db')) :
    ∃ groupTx prev ghead,
      db.txs.find? (fun t => decide (t.id = gid)) = some groupTx ∧
      groupTx.type = .PENDING ∧
      resolvePrev db groupTx.account_id p? = .ok prev ∧
      getLatestGroupTransaction db groupTx = some ghead ∧
      txViolations db (settleTx prev ghead groupTx k) = [] ∧
      r = (settleTx prev ghead groupTx k).id ∧
      db' = { db with txs := db.txs ++ [settleTx prev ghead groupTx k] } := by
  unfold settleTransaction at h
  split at h
  next => simp at h
  next groupTx hfind =>
    split at h
    next => simp at h
    next hty =>
      split at h
      next => simp at h
      next prev hres =>
        split at h
        next => simp at h
        next ghead hglt =>
          obtain ⟨hv, hr, hd⟩ := finishInsert_ok h
          exact ⟨groupTx, prev, ghead, hfind, not_not.mp hty, hres, hglt,
                 hv, hr, hd⟩

theorem refund_ok {db : Db} {gid : TxId} {amount : Money} {k : Nat}
    {p? : Option TxId} {r : TxId} {db' : Db}
    (h : refundPendingTransaction db gid amount k p? = .ok (r, db')) :
    0 < amount ∧ ∃ groupTx prev ghead,
      db.txs.find? (fun t => decide (t.id = gid)) = some groupTx ∧
      groupTx.type = .PENDING ∧ groupTx.amount < 0 ∧
      resolvePrev db groupTx.account_id p? = .ok prev ∧
      getLatestGroupTransaction db groupTx = some ghead ∧
      txViolations db (refundTx prev ghead groupTx amount k) = [] ∧
      r = (refundTx prev ghead groupTx amount k).id ∧
      db' = { db with txs := db.txs ++ [refundTx prev ghead groupTx amount k] } := by
  unfold refundPendingTransaction at h
  split at h
  next => simp at h
  next hz =>
    split at h
    next => simp at h
    next hneg =>
      have hpos : 0 < amount := lt_of_le_of_ne (not_lt.mp (fun hlt => hneg hlt.le))
        (Ne.symm hz)
      split at h
      next => simp at h
      next groupTx hfind =>
        split at h
        next => simp at h
        next hty =>
          split at h
          next => simp at h
          next prev hres =>
            split at h
            next => simp at h
            next hcred =>
              split at h
              next => simp at h
              next ghead hglt =>
                obtain ⟨hv, hr, hd⟩ := finishInsert_ok h
                exact ⟨hpos, groupTx, prev, ghead, hfind, not_not.mp hty,
                       not_not.mp hcred, hres, hglt, hv, hr, hd⟩

/-- Balance sanity of one event: the predicate of the store's three balance
check constraints. -/
def BalOk (t : Tx) : Prop :=
  0 ≤ t.available_balance ∧ t.available_balance ≤ t.current_balance

/-- Invariants of the `tx` table maintained by every ledger operation:
balance sanity of every row, distinctness of ids (primary key), id-digest
coherence, and sign coherence of every group (each member's pending amount
carries the sign of its root PENDING's amount). -/
def InvTxs (txs : List Tx) : Prop :=
  (∀ t ∈ txs, BalOk t) ∧
  (txs.map (fun t => t.id)).Nodup ∧
  (∀ t ∈ txs, t.id = txHashOf t) ∧
  (∀ t ∈ txs, ∀ g, t.group_tx_id = some g →
    ∃ root, root ∈ txs ∧ root.id = g ∧ root.type = .PENDING ∧
      (0 < root.amount → 0 < t.pending_amount) ∧
      (root.amount < 0 → t.pending_amount ≤ 0) ∧
      (root.amount = 0 → t.pending_amount = 0))

theorem nodup_insert {db : Db} {t : Tx}
    (hnd : (db.txs.map (fun x => x.id)).Nodup)
    (hnew : ∀ e ∈ db.txs, e.id ≠ t.id) :
    ((db.txs ++ [t]).map (fun x => x.id)).Nodup := by
  rw [List.map_append, List.nodup_append]
  refine ⟨hnd, List.nodup_singleton _, ?_⟩
  intro a ha hb
  obtain ⟨e, he, rfl⟩ := List.mem_map.mp ha
  exact hnew e he (by simpa using hb)

theorem invTxs_insert {db : Db} {t : Tx} (hInv : InvTxs db.txs)
    (hv : txViolations db t = []) (hhash : t.id = txHashOf t)
    (hgs : ∀ g, t.group_tx_id = some g →
      ∃ root, root ∈ db.txs ++ [t] ∧ root.id = g ∧ root.type = .PENDING ∧
        (0 < root.amount → 0 < t.pending_amount) ∧
        (root.amount < 0 → t.pending_amount ≤ 0) ∧
        (root.amount = 0 → t.pending_amount = 0)) :
    InvTxs (db.txs ++ [t]) := by
  obtain ⟨hb, hnd, hh, hg⟩ := hInv
  refine ⟨?_, nodup_insert hnd (checks_pkey hv), ?_, ?_⟩
  · intro x hx
    rcases List.mem_append.mp hx with hx | hx
    · exact hb x hx
    · obtain rfl : x = t := by simpa using hx
      exact checks_bal hv
  · intro x hx
    rcases List.mem_append.mp hx with hx | hx
    · exact hh x hx
    · obtain rfl : x = t := by simpa using hx
      exact hhash
  · intro x hx g hxg
    rcases List.mem_append.mp hx with hx | hx
    · obtain ⟨root, hr, hrid, hrty, h1, h2, h3⟩ := hg x hx g hxg
      exact ⟨root, List.mem_append_left _ hr, hrid, hrty, h1, h2, h3⟩
    · obtain rfl : x = t := by simpa using hx
      exact hgs g hxg

theorem reachable_inv {db : Db} (h : Reachable db) : InvTxs db.txs := by
  induction h with
  | empty =>
    exact ⟨fun t ht => absurd ht (by simp), by simp,
           fun t ht => absurd ht (by simp), fun t ht => absurd ht (by simp)⟩
  | @newAccount db aid name k db' hr hop ih =>
    obtain ⟨r, hop⟩ := hop
    obtain ⟨-, -, hv, hd⟩ := createAccount_ok hop
    subst hd
    refine @invTxs_insert { db with accounts := db.accounts ++ [⟨aid, name⟩] }
      (newAccountTx aid k) ih hv rfl ?_
    intro g hg
    exact absurd hg (by simp [newAccountTx, newAccountTx0])
  | @pending db aid amount k p db' hr hop ih =>
    obtain ⟨r, hop⟩ := hop
    obtain ⟨prev, hres, hab, hv, hrid, hd⟩ := createPending_ok hop
    subst hd
    refine invTxs_insert ih hv rfl ?_
    intro g hg
    refine ⟨pendingTx prev aid amount k,
            List.mem_append_right _ (by simp), ?_, ?_, ?_, ?_, ?_⟩
    · exact (Option.some.inj hg)
    · rfl
    · exact fun hlt => hlt
    · exact fun hlt => le_of_lt hlt
    · exact fun heq => heq
  | @settle db gid k p db' hr hop ih =>
    obtain ⟨r, hop⟩ := hop
    obtain ⟨groupTx, prev, ghead, hfind, hty, hres, hglt, hv, hrid, hd⟩ :=
      settle_ok hop
    subst hd
    refine invTxs_insert ih hv rfl ?_
    intro g hg
    have hgeq : groupTx.id = g := Option.some.inj hg
    subst hgeq
    have hgt_mem : groupTx ∈ db.txs := List.mem_of_find?_eq_some hfind
    obtain ⟨hgh_mem, hgh_grp, -⟩ := getLatestGroup_spec ih.2.1 hglt
    obtain ⟨root', hr'mem, hr'id, -, h1, h2, h3⟩ :=
      ih.2.2.2 ghead hgh_mem groupTx.id hgh_grp
    have hre : root' = groupTx :=
      List.inj_on_of_nodup_map ih.2.1 hr'mem hgt_mem (by rw [hr'id])
    subst hre
    exact ⟨root', List.mem_append_left _ hr'mem, rfl, hty, h1, h2, h3⟩
  | @refund db gid amount k p db' hr hop ih =>
    obtain ⟨r, hop⟩ := hop
    obtain ⟨hpos, groupTx, prev, ghead, hfind, hty, hcred, hres, hglt, hv,
            hrid, hd⟩ := refund_ok hop
    subst hd
    refine invTxs_insert ih hv rfl ?_
    intro g hg
    have hgeq : groupTx.id = g := Option.some.inj hg
    subst hgeq
    have hgt_mem : groupTx ∈ db.txs := List.mem_of_find?_eq_some hfind
    have hrf := checks_refund hv rfl
    refine ⟨groupTx, List.mem_append_left _ hgt_mem, rfl, hty, ?_, ?_, ?_⟩
    · intro hlt; exact absurd hlt (not_lt.mpr (le_of_lt hcred))
    · intro _; exact hrf.2.1
    · intro heq; exact absurd heq (ne_of_lt hcred)

/-- Placeholder row used only as the default of total list projections in
the concrete scenarios below. -/
def dummyTx : Tx :=
  { id := .nil, idempotency_key := 0, account_id := 0, type := .PENDING,
    amount := 0, pending_amount := 0, group_tx_id := none,
    group_prev_tx_id := none, group_prev_pending_amount := 0,
    prev_tx_id := none, prev_current_balance := 0,
    prev_available_balance := 0, current_balance := 0, available_balance := 0 }

/-- The value part of an operation result, with a fallback. -/
def resDb (res : Except Err (TxId × Db)) (fallback : Db) : Db :=
  match res with | .ok (_, d) => d | .error _ => fallback

/-- The id part of an operation result. -/
def resId (res : Except Err (TxId × Db)) : TxId :=
  match res with | .ok (i, _) => i | .error _ => .nil

/-- The empty store. -/
def db0 : Db := { accounts := [], txs := [] }

/-- Account `andy` created (account id 1, idempotency key 100). -/
def dbA : Db := match createAccount db0 1 "andy" 100 with
  | .ok (_, d) => d | .error _ => db0

/-- Pending debit +100 on `andy` (key 101). -/
def stepB : Except Err (TxId × Db) := createPendingTransaction dbA 1 100 101 none

def dbB : Db := resDb stepB dbA

/-- Group id of the +100 debit. -/
def gD : TxId := resId stepB

/-- The +100 debit settled (key 102): balances (100, 100). -/
def stepC : Except Err (TxId × Db) := settleTransaction dbB gD 102 none

def dbC : Db := resDb stepC dbB

def sC : TxId := resId stepC

/-- Pending credit −30 on `andy` (key 103): balances (100, 70). -/
def stepD : Except Err (TxId × Db) :=
  createPendingTransaction dbC 1 (-30) 103 none

def dbD : Db := resDb stepD dbC

/-- Group id of the −30 credit. -/
def gA : TxId := resId stepD

/-- Second pending credit −60 (key 104): balances (100, 10). -/
def stepE : Except Err (TxId × Db) :=
  createPendingTransaction dbD 1 (-60) 104 none

def dbE : Db := resDb stepE dbD

/-- The −30 credit settled (key 105): balances (70, 10); group `gA` closed. -/
def stepF : Except Err (TxId × Db) := settleTransaction dbE gA 105 none

def dbF : Db := resDb stepF dbE

/-- Pending credit −50 on `andy` from `dbC` (key 110): balances (100, 50). -/
def stepG : Except Err (TxId × Db) :=
  createPendingTransaction dbC 1 (-50) 110 none

def dbG : Db := resDb stepG dbC

/-- Group id of the −50 credit. -/
def gC : TxId := resId stepG

/-- The −50 credit settled (key 111): balances (50, 50); group `gC` closed. -/
def stepH : Except Err (TxId × Db) := settleTransaction dbG gC 111 none

def dbH : Db := resDb stepH dbG

/-- The NEW_ACCOUNT event of `andy`. -/
def txA : Tx := dbA.txs.headD dummyTx

theorem reach_dbA : Reachable dbA :=
  Reachable.newAccount 1 "andy" 100 Reachable.empty ⟨1, by decide⟩

theorem reach_dbB : Reachable dbB :=
  Reachable.pending 1 100 101 none reach_dbA ⟨gD, by decide⟩

theorem reach_dbC : Reachable dbC :=
  Reachable.settle gD 102 none reach_dbB ⟨sC, by decide⟩

theorem reach_dbD : Reachable dbD :=
  Reachable.pending 1 (-30) 103 none reach_dbC ⟨gA, by decide⟩

theorem reach_dbE : Reachable dbE :=
  Reachable.pending 1 (-60) 104 none reach_dbD ⟨resId stepE, by decide⟩

theorem reach_dbF : Reachable dbF :=
  Reachable.settle gA 105 none reach_dbE ⟨resId stepF, by decide⟩

theorem reach_dbG : Reachable dbG :=
  Reachable.pending 1 (-50) 110 none reach_dbC ⟨gC, by decide⟩

theorem reach_dbH : Reachable dbH :=
  Reachable.settle gC 111 none reach_dbG ⟨resId stepH, by decide⟩

theorem resolvePrev_err {db : Db} {aid : Nat} {p? : Option TxId} {e : Err}
    (h : resolvePrev db aid p? = .error e) :
    e = .noSuchPrev ∨ e = .noUniqueHead := by
  unfold resolvePrev at h
  split at h
  · split at h
    next => simp at h
    next => exact Or.inl (Except.error.inj h).symm
  · split at h
    next =>
      split at h
      next => simp at h
      next => exact Or.inl (Except.error.inj h).symm
    next => exact Or.inr (Except.error.inj h).symm

theorem finishInsert_error_of_mem {db : Db} {t : Tx} {s : String}
    (hs : s ∈ txViolations db t) :
    finishInsert db t = .error (.integrity (txViolations db t)) := by
  cases hfi : finishInsert db t with
  | ok rd =>
    obtain ⟨r', d'⟩ := rd
    obtain ⟨hv, -, -⟩ := finishInsert_ok hfi
    rw [hv] at hs
    cases hs
  | error e =>
    obtain ⟨he, -⟩ := finishInsert_err hfi
    rw [he]

theorem createPending_err_integrity {db : Db} {aid : Nat} {amount : Money}
    {k : Nat} {p? : Option TxId} {vs : List String}
    (h : createPendingTransaction db aid amount k p? = .error (.integrity vs)) :
    ∃ prev, resolvePrev db aid p? = .ok prev ∧
      vs = txViolations db (pendingTx prev aid amount k) := by
  unfold createPendingTransaction at h
  split at h
  next e heq =>
    rcases resolvePrev_err heq with h' | h' <;>
      · rw [h'] at h; exact absurd (Except.error.inj h) (by simp)
  next prev hres =>
    split at h
    next => exact absurd (Except.error.inj h) (by simp)
    next =>
      obtain ⟨he, -⟩ := finishInsert_err h
      exact ⟨prev, hres, Err.integrity.inj he⟩

theorem settle_err_integrity {db : Db} {gid : TxId} {k : Nat}
    {p? : Option TxId} {vs : List String}
    (h : settleTransaction db gid k p? = .error (.integrity vs)) :
    ∃ groupTx prev ghead,
      db.txs.find? (fun t => decide (t.id = gid)) = some groupTx ∧
      resolvePrev db groupTx.account_id p? = .ok prev ∧
      getLatestGroupTransaction db groupTx = some ghead ∧
      vs = txViolations db (settleTx prev ghead groupTx k) := by
  unfold settleTransaction at h
  split at h
  next => exact absurd (Except.error.inj h) (by simp)
  next groupTx hfind =>
    split at h
    next => exact absurd (Except.error.inj h) (by simp)
    next =>
      split at h
      next e heq =>
        rcases resolvePrev_err heq with h' | h' <;>
          · rw [h'] at h; exact absurd (Except.error.inj h) (by simp)
      next prev hres =>
        split at h
        next => exact absurd (Except.error.inj h) (by simp)
        next ghead hglt =>
          obtain ⟨he, -⟩ := finishInsert_err h
          exact ⟨groupTx, prev, ghead, hfind, hres, hglt,
                 Err.integrity.inj he⟩

theorem refund_err_integrity {db : Db} {gid : TxId} {amount : Money} {k : Nat}
    {p? : Option TxId} {vs : List String}
    (h : refundPendingTransaction db gid amount k p? = .error (.integrity vs)) :
    ∃ groupTx prev ghead,
      db.txs.find? (fun t => decide (t.id = gid)) = some groupTx ∧
      resolvePrev db groupTx.account_id p? = .ok prev ∧
      getLatestGroupTransaction db groupTx = some ghead ∧
      vs = txViolations db (refundTx prev ghead groupTx amount k) := by
  unfold refundPendingTransaction at h
  split at h
  next => exact absurd (Except.error.inj h) (by simp)
  next =>
    split at h
    next => exact absurd (Except.error.inj h) (by simp)
    next =>
      split at h
      next => exact absurd (Except.error.inj h) (by simp)
      next groupTx hfind =>
        split at h
        next => exact absurd (Except.error.inj h) (by simp)
        next =>
          split at h
          next e heq =>
            rcases resolvePrev_err heq with h' | h' <;>
              · rw [h'] at h; exact absurd (Except.error.inj h) (by simp)
          next prev hres =>
            split at h
            next => exact absurd (Except.error.inj h) (by simp)
            next =>
              split at h
              next => exact absurd (Except.error.inj h) (by simp)
              next ghead hglt =>
                obtain ⟨he, -⟩ := finishInsert_err h
                exact ⟨groupTx, prev, ghead, hfind, hres, hglt,
                       Err.integrity.inj he⟩

theorem prev_unique_mem_violations {db : Db} {t : Tx} {p : TxId} {e : Tx}
    (htp : t.prev_tx_id = some p) (he : e ∈ db.txs)
    (hep : e.prev_tx_id = some p) :
    "tx_prev_tx_id_unique" ∈ txViolations db t := by
  refine mem_txViolations
    (c := ("tx_prev_tx_id_unique",
      decide (t.prev_tx_id ≠ none) &&
        db.txs.any (fun x => decide (x.prev_tx_id = t.prev_tx_id))))
    (by simp [txChecks]) ?_
  show (_ && _) = true
  rw [Bool.and_eq_true]
  exact ⟨decide_eq_true (by simp [htp]),
         List.any_eq_true.mpr ⟨e, he, decide_eq_true (by rw [hep, htp])⟩⟩

theorem runWrite_stale_prev {db : Db} {op : WriteOp} {p : TxId}
    (href : ∃ e ∈ db.txs, e.prev_tx_id = some p) :
    ∃ err, runWrite db op (some p) = .error err := by
  obtain ⟨e, he, hep⟩ := href
  cases hrw : runWrite db op (some p) with
  | error err => exact ⟨err, rfl⟩
  | ok rd =>
    exfalso
    obtain ⟨r, db'⟩ := rd
    cases op with
    | pending aid amount k =>
      obtain ⟨prev, hres, -, hv, -, -⟩ := createPending_ok hrw
      have hpid : prev.id = p := resolvePrev_id hres
      refine checks_prev_unique hv (t := pendingTx prev aid amount k)
        (by simp [pendingTx, pendingTx0]) e he ?_
      rw [hep]
      show some p = some prev.id
      rw [hpid]
    | settle gid k =>
      obtain ⟨groupTx, prev, ghead, -, -, hres, -, hv, -, -⟩ := settle_ok hrw
      have hpid : prev.id = p := resolvePrev_id hres
      refine checks_prev_unique hv (t := settleTx prev ghead groupTx k)
        (by simp [settleTx, settleTx0]) e he ?_
      rw [hep]
      show some p = some prev.id
      rw [hpid]
    | refund gid amount k =>
      obtain ⟨-, groupTx, prev, ghead, -, -, -, hres, -, hv, -, -⟩ :=
        refund_ok hrw
      have hpid : prev.id = p := resolvePrev_id hres
      refine checks_prev_unique hv (t := refundTx prev ghead groupTx amount k)
        (by simp [refundTx, refundTx0]) e he ?_
      rw [hep]
      show some p = some prev.id
      rw [hpid]

theorem runWrite_ok_prev {db : Db} {op : WriteOp} {p r : TxId} {db₁ : Db}
    (h : runWrite db op (some p) = .ok (r, db₁)) :
    ∃ t, db₁.txs = db.txs ++ [t] ∧ t.prev_tx_id = some p := by
  cases op with
  | pending aid amount k =>
    obtain ⟨prev, hres, -, -, -, hd⟩ := createPending_ok h
    refine ⟨pendingTx prev aid amount k, by rw [hd], ?_⟩
    show some prev.id = some p
    rw [resolvePrev_id hres]
  | settle gid k =>
    obtain ⟨groupTx, prev, ghead, -, -, hres, -, -, -, hd⟩ := settle_ok h
    refine ⟨settleTx prev ghead groupTx k, by rw [hd], ?_⟩
    show some prev.id = some p
    rw [resolvePrev_id hres]
  | refund gid amount k =>
    obtain ⟨-, groupTx, prev, ghead, -, -, -, hres, -, -, -, hd⟩ := refund_ok h
    refine ⟨refundTx prev ghead groupTx amount k, by rw [hd], ?_⟩
    show some prev.id = some p
    rw [resolvePrev_id hres]

theorem runWrite_integrity_mem {db : Db} {op : WriteOp} {p : TxId}
    {vs : List String} (href : ∃ e ∈ db.txs, e.prev_tx_id = some p)
    (h : runWrite db op (some p) = .error (.integrity vs)) :
    "tx_prev_tx_id_unique" ∈ vs := by
  obtain ⟨e, he, hep⟩ := href
  cases op with
  | pending aid amount k =>
    obtain ⟨prev, hres, hvs⟩ := createPending_err_integrity h
    subst hvs
    exact prev_unique_mem_violations
      (show some prev.id = some p by rw [resolvePrev_id hres]) he hep
  | settle gid k =>
    obtain ⟨groupTx, prev, ghead, -, hres, -, hvs⟩ := settle_err_integrity h
    subst hvs
    exact prev_unique_mem_violations
      (show some prev.id = some p by rw [resolvePrev_id hres]) he hep
  | refund gid amount k =>
    obtain ⟨groupTx, prev, ghead, -, hres, -, hvs⟩ := refund_err_integrity h
    subst hvs
    exact prev_unique_mem_violations
      (show some prev.id = some p by rw [resolvePrev_id hres]) he hep

/-- C1: in every reachable ledger state, every persisted event satisfies
`0 ≤ available_balance ≤ current_balance` — the balance bounds are an
invariant of every state reachable by create_account,
create_pending_transaction, settle_transaction and
refund_pending_transaction. -/
theorem C1_balance_invariant {db : Db} (h : Reachable db) :
    ∀ t ∈ db.txs, 0 ≤ t.available_balance ∧
      t.available_balance ≤ t.current_balance :=
  fun t ht => (reachable_inv h).1 t ht

/-- C1 witness: the invariant evaluated at the NEW_ACCOUNT event of the
concrete reachable state `dbA`. -/
theorem C1_balance_invariant_witness :
    txA ∈ dbA.txs ∧ 0 ≤ txA.available_balance ∧
      txA.available_balance ≤ txA.current_balance :=
  ⟨by decide, C1_balance_invariant reach_dbA txA (by decide)⟩

/-- C7: a pending credit whose amount would drive the predecessor's (the
account head's) available balance below zero fails with InsufficientFunds,
and — the operation returning only an error — nothing is persisted and the
head is unchanged. -/
theorem C7_insufficient_funds {db : Db} {aid : Nat} {amount : Money}
    {k : Nat} {p? : Option TxId} {e : Tx}
    (hres : resolvePrev db aid p? = .ok e)
    (hhead : ¬ ∃ x ∈ db.txs, x.prev_tx_id = some e.id)
    (hacct : e.account_id = aid)
    (hcred : amount < 0)
    (hins : e.available_balance + amount < 0) :
    createPendingTransaction db aid amount k p? = .error .insufficientFund := by
  unfold createPendingTransaction
  simp only [hres]
  have hcond : (pendingTx0 e aid amount k).available_balance < 0 := by
    show (if amount < 0 then e.available_balance + amount
          else e.available_balance) < 0
    rw [if_pos hcred]
    exact hins
  rw [if_pos hcond]

/-- C7 witness: from the concrete state `dbC` (balances (100, 100)), a
pending credit of −150 is rejected with InsufficientFunds. -/
theorem C7_insufficient_funds_witness :
    createPendingTransaction dbC 1 (-150) 300 none =
      .error .insufficientFund :=
  C7_insufficient_funds (e := (resolvePrev dbC 1 none).toOption.getD dummyTx)
    (by decide) (by decide) (by decide) (by decide) (by decide)

/-- C8 (amended): a write operation given an explicit `prev_tx_id` that some
stored event already references as its predecessor (i.e. a non-head) always
fails, persisting nothing; when the failure reaches the store it surfaces as
the uniqueness violation on `prev_tx_id` (ConcurrentModification), though an
earlier engine check (such as InsufficientFunds) may reject first with its
own error; and of two appends supplying the same `prev_tx_id`, at most one
succeeds. -/
theorem C8_optimistic_lock :
    (∀ (db : Db) (op : WriteOp) (p : TxId),
      (∃ e ∈ db.txs, e.prev_tx_id = some p) →
      (∃ err, runWrite db op (some p) = .error err) ∧
      (∀ vs, runWrite db op (some p) = .error (.integrity vs) →
        "tx_prev_tx_id_unique" ∈ vs)) ∧
    (∀ (db : Db) (op₁ op₂ : WriteOp) (p r : TxId) (db₁ : Db),
      runWrite db op₁ (some p) = .ok (r, db₁) →
      ∃ err, runWrite db₁ op₂ (some p) = .error err) := by
  constructor
  · intro db op p href
    exact ⟨runWrite_stale_prev href,
           fun vs h => runWrite_integrity_mem href h⟩
  · intro db op₁ op₂ p r db₁ h
    obtain ⟨t, hd, htp⟩ := runWrite_ok_prev h
    exact runWrite_stale_prev
      ⟨t, by rw [hd]; exact List.mem_append_right _ (by simp), htp⟩

/-- C8 witness: in `dbB` the NEW_ACCOUNT event is no longer the head (the
+100 PENDING references it), so a settle and a refund given it as explicit
`prev_tx_id` both fail; and after the +100 PENDING succeeded against that
same predecessor, any second append against it fails. -/
theorem C8_optimistic_lock_witness :
    (∃ err, runWrite dbB (.settle gD 300) (some txA.id) = .error err) ∧
    (∃ err, runWrite dbB (.refund gD 5 301) (some txA.id) = .error err) :=
  ⟨(C8_optimistic_lock.1 dbB (.settle gD 300) txA.id (by decide)).1,
   C8_optimistic_lock.2 dbA (.pending 1 100 101) (.refund gD 5 301)
     txA.id gD dbB (by decide)⟩

/-- C8 counterexample to the original claim: a pending credit supplied with
a stale (referenced, non-head) `prev_tx_id` fails with InsufficientFunds —
a failure, but not the claimed ConcurrentModification uniqueness violation
on `prev_tx_id`: the engine's balance check fires before the store is
reached. -/
theorem C8_counterexample :
    (∃ e ∈ dbB.txs, e.prev_tx_id = some txA.id) ∧
    runWrite dbB (.pending 1 (-10) 302) (some txA.id) =
      .error .insufficientFund := by decide

/-- C9 (amended): `create_account` returns only the account id (not the
claimed pair with the NEW_ACCOUNT transaction id); every successful call
persists exactly one Account row and one NEW_ACCOUNT event whose amount,
pending amount and all four balances are zero and whose `prev_tx_id`,
`group_tx_id` and `group_prev_tx_id` are null; it fails with DuplicateName
when an account with the same name already exists. -/
theorem C9_create_account :
    (∀ (db : Db) (aid : Nat) (name : String) (k : Nat),
      (∃ a ∈ db.accounts, a.name = name) →
      createAccount db aid name k = .error .duplicateName) ∧
    (∀ (db : Db) (aid : Nat) (name : String) (k r : Nat) (db' : Db),
      createAccount db aid name k = .ok (r, db') →
      r = aid ∧ db'.accounts = db.accounts ++ [⟨aid, name⟩] ∧
      ∃ t, db'.txs = db.txs ++ [t] ∧ t.type = .NEW_ACCOUNT ∧
        t.account_id = aid ∧ t.idempotency_key = k ∧ t.amount = 0 ∧
        t.pending_amount = 0 ∧ t.current_balance = 0 ∧
        t.available_balance = 0 ∧ t.prev_current_balance = 0 ∧
        t.prev_available_balance = 0 ∧ t.prev_tx_id = none ∧
        t.group_tx_id = none ∧ t.group_prev_tx_id = none ∧
        t.group_prev_pending_amount = 0) := by
  constructor
  · rintro db aid name k ⟨a, ha, han⟩
    unfold createAccount
    rw [if_pos (List.any_eq_true.mpr ⟨a, ha, decide_eq_true han⟩)]
  · intro db aid name k r db' h
    obtain ⟨-, hr, -, hd⟩ := createAccount_ok h
    subst hd
    exact ⟨hr, rfl, newAccountTx aid k, rfl, rfl, rfl, rfl, rfl, rfl, rfl,
           rfl, rfl, rfl, rfl, rfl, rfl, rfl⟩

/-- C9 witness: creating `andy` in the empty store succeeds and returns the
account id; creating a second account named `andy` in `dbA` fails with
DuplicateName. -/
theorem C9_create_account_witness :
    (createAccount dbA 2 "andy" 400 = .error .duplicateName) ∧
    (1 = 1 ∧ dbA.accounts = db0.accounts ++ [⟨1, "andy"⟩] ∧
      ∃ t, dbA.txs = db0.txs ++ [t] ∧ t.type = .NEW_ACCOUNT ∧
        t.account_id = 1 ∧ t.idempotency_key = 100 ∧ t.amount = 0 ∧
        t.pending_amount = 0 ∧ t.current_balance = 0 ∧
        t.available_balance = 0 ∧ t.prev_current_balance = 0 ∧
        t.prev_available_balance = 0 ∧ t.prev_tx_id = none ∧
        t.group_tx_id = none ∧ t.group_prev_tx_id = none ∧
        t.group_prev_pending_amount = 0) :=
  ⟨C9_create_account.1 dbA 2 "andy" 400 (by decide),
   C9_create_account.2 db0 1 "andy" 100 1 dbA (by decide)⟩

def dX1 : Db := match createAccount db0 7 "x" 1 with
  | .ok (_, d) => d | .error _ => db0

def dX2 : Db := match createAccount db0 7 "x" 2 with
  | .ok (_, d) => d | .error _ => db0

/-- C9 counterexample to the original claim's return value: two
`create_account` calls that differ only in their idempotency key return the
IDENTICAL value (just the account id, 7) although the NEW_ACCOUNT
transaction ids they persist differ — so the returned value cannot be the
claimed pair `(account_id, new_account_tx_id)`; the transaction id is not
returned at all. -/
theorem C9_counterexample :
    createAccount db0 7 "x" 1 = .ok (7, dX1) ∧
    createAccount db0 7 "x" 2 = .ok (7, dX2) ∧
    (dX1.txs.headD dummyTx).type = .NEW_ACCOUNT ∧
    (dX2.txs.headD dummyTx).type = .NEW_ACCOUNT ∧
    (dX1.txs.headD dummyTx).id ≠ (dX2.txs.headD dummyTx).id := by decide

/-- C2: a successful `create_pending_transaction` chains to an event `e` of
the account that no other event references as predecessor (the head, with
balances (c, a)); a debit (`amount > 0`) leaves both balances unchanged
while a credit (`amount < 0`) sets the available balance to `a + amount`;
the new event carries `pending_amount = amount` and is its own group root:
`group_tx_id = id`, `group_prev_tx_id` null, `group_prev_pending_amount`
zero. -/
theorem C2_pending_event {db : Db} {aid : Nat} {amount : Money} {k : Nat}
    {p? : Option TxId} {r : TxId} {db' : Db} (hreach : Reachable db)
    (h : createPendingTransaction db aid amount k p? = .ok (r, db')) :
    ∃ e t, e ∈ db.txs ∧ e.account_id = aid ∧
      (¬ ∃ x ∈ db.txs, x.prev_tx_id = some e.id) ∧
      t.prev_tx_id = some e.id ∧
      db'.txs = db.txs ++ [t] ∧ r = t.id ∧
      t.type = .PENDING ∧ t.amount = amount ∧ t.pending_amount = amount ∧
      (0 < amount → t.current_balance = e.current_balance ∧
        t.available_balance = e.available_balance) ∧
      (amount < 0 → t.current_balance = e.current_balance ∧
        t.available_balance = e.available_balance + amount) ∧
      t.group_tx_id = some t.id ∧ t.group_prev_tx_id = none ∧
      t.group_prev_pending_amount = 0 := by
  obtain ⟨prev, hres, hab, hv, hrid, hd⟩ := createPending_ok h
  have hmem := resolvePrev_mem hres
  have hnd := (reachable_inv hreach).2.1
  obtain ⟨e2, he2, he2a, he2id⟩ := checks_account_prev hv (p := prev.id) rfl
  have he2e : e2 = prev := List.inj_on_of_nodup_map hnd he2 hmem he2id
  have hacc : prev.account_id = aid := by
    rw [he2e] at he2a
    exact he2a
  have hunref : ¬ ∃ x ∈ db.txs, x.prev_tx_id = some prev.id := by
    rintro ⟨x, hx, hxp⟩
    exact checks_prev_unique hv (fun hc => Option.noConfusion hc) x hx
      (by rw [hxp]; rfl)
  refine ⟨prev, pendingTx prev aid amount k, hmem, hacc, hunref, rfl,
          by rw [hd], hrid, rfl, rfl, rfl, ?_, ?_, rfl, rfl, rfl⟩
  · intro hpos
    refine ⟨rfl, ?_⟩
    show (if amount < 0 then prev.available_balance + amount
          else prev.available_balance) = prev.available_balance
    rw [if_neg (not_lt.mpr (le_of_lt hpos))]
  · intro hneg
    refine ⟨rfl, ?_⟩
    show (if amount < 0 then prev.available_balance + amount
          else prev.available_balance) = prev.available_balance + amount
    rw [if_pos hneg]

/-- C2 witness: the −50 pending credit taking the concrete state `dbC`
(balances (100, 100)) to `dbG`. -/
theorem C2_pending_event_witness :
    ∃ e t, e ∈ dbC.txs ∧ e.account_id = 1 ∧
      (¬ ∃ x ∈ dbC.txs, x.prev_tx_id = some e.id) ∧
      t.prev_tx_id = some e.id ∧
      dbG.txs = dbC.txs ++ [t] ∧ gC = t.id ∧
      t.type = .PENDING ∧ t.amount = -50 ∧ t.pending_amount = -50 ∧
      (0 < (-50 : Money) → t.current_balance = e.current_balance ∧
        t.available_balance = e.available_balance) ∧
      ((-50 : Money) < 0 → t.current_balance = e.current_balance ∧
        t.available_balance = e.available_balance + (-50)) ∧
      t.group_tx_id = some t.id ∧ t.group_prev_tx_id = none ∧
      t.group_prev_pending_amount = 0 :=
  @C2_pending_event dbC 1 (-50) 110 none gC dbG reach_dbC (by decide)

/-- C3: a successful `settle_transaction` on a group whose head carries
`pending_amount = p` appends a SETTLEMENT with `amount = pending_amount =
p`, chained to the account head `e` (balances (c, a)); when `p > 0` (a
debit group) the new balances are `(c + p, a + p)`, and when `p < 0` (a
credit group) they are `(c + p, a)`; success also shows the group had no
prior SETTLEMENT (it was open). -/
theorem C3_settlement_event {db : Db} {gid : TxId} {k : Nat}
    {p? : Option TxId} {r : TxId} {db' : Db} (hreach : Reachable db)
    (h : settleTransaction db gid k p? = .ok (r, db')) :
    ∃ root ghead e t,
      root ∈ db.txs ∧ root.id = gid ∧ root.type = .PENDING ∧
      ghead ∈ db.txs ∧ ghead.group_tx_id = some gid ∧
      (¬ ∃ x ∈ db.txs, x.group_tx_id = some gid ∧
          x.group_prev_tx_id = some ghead.id) ∧
      (¬ ∃ x ∈ db.txs, x.type = .SETTLEMENT ∧ x.group_tx_id = some gid) ∧
      e ∈ db.txs ∧ e.account_id = root.account_id ∧
      (¬ ∃ x ∈ db.txs, x.prev_tx_id = some e.id) ∧
      t.prev_tx_id = some e.id ∧ db'.txs = db.txs ++ [t] ∧ r = t.id ∧
      t.type = .SETTLEMENT ∧ t.amount = ghead.pending_amount ∧
      t.pending_amount = ghead.pending_amount ∧
      (0 < ghead.pending_amount →
        t.current_balance = e.current_balance + ghead.pending_amount ∧
        t.available_balance = e.available_balance + ghead.pending_amount) ∧
      (ghead.pending_amount < 0 →
        t.current_balance = e.current_balance + ghead.pending_amount ∧
        t.available_balance = e.available_balance) := by
  obtain ⟨groupTx, prev, ghead, hfind, hty, hres, hglt, hv, hrid, hd⟩ :=
    settle_ok h
  have hnd := (reachable_inv hreach).2.1
  have hgid : groupTx.id = gid := by simpa using List.find?_some hfind
  have hgt_mem : groupTx ∈ db.txs := List.mem_of_find?_eq_some hfind
  have hpm := resolvePrev_mem hres
  obtain ⟨hgh_mem, hgh_grp, hgh_head⟩ := getLatestGroup_spec hnd hglt
  obtain ⟨e2, he2, he2a, he2id⟩ := checks_account_prev hv (p := prev.id) rfl
  have he2e : e2 = prev := List.inj_on_of_nodup_map hnd he2 hpm he2id
  have hacc : prev.account_id = groupTx.account_id := by
    rw [he2e] at he2a
    exact he2a
  have hunref : ¬ ∃ x ∈ db.txs, x.prev_tx_id = some prev.id := by
    rintro ⟨x, hx, hxp⟩
    exact checks_prev_unique hv (fun hc => Option.noConfusion hc) x hx
      (by rw [hxp]; rfl)
  have hopen : ¬ ∃ x ∈ db.txs, x.type = .SETTLEMENT ∧
      x.group_tx_id = some gid := by
    rintro ⟨x, hx, hxt, hxg⟩
    exact checks_one_settlement hv rfl x hx ⟨hxt, by rw [hxg, ← hgid]; rfl⟩
  obtain ⟨root', hr'mem, hr'id, -, h1, h2, h3⟩ :=
    (reachable_inv hreach).2.2.2 ghead hgh_mem groupTx.id hgh_grp
  have hre : root' = groupTx :=
    List.inj_on_of_nodup_map hnd hr'mem hgt_mem (by rw [hr'id])
  rw [hre] at h1 h2 h3
  refine ⟨groupTx, ghead, prev, settleTx prev ghead groupTx k,
          hgt_mem, hgid, hty, hgh_mem, by rw [← hgid]; exact hgh_grp,
          by rw [← hgid]; exact hgh_head, hopen,
          hpm, hacc, hunref, rfl, by rw [hd], hrid, rfl, rfl, rfl, ?_, ?_⟩
  · intro hpos
    have hroot_pos : 0 < groupTx.amount := by
      rcases lt_trichotomy groupTx.amount 0 with hneg | hzero | hpos'
      · exact absurd (h2 hneg) (not_le.mpr hpos)
      · exact absurd (h3 hzero) (ne_of_gt hpos)
      · exact hpos'
    refine ⟨rfl, ?_⟩
    show (if 0 < groupTx.amount then
            prev.available_balance + ghead.pending_amount
          else prev.available_balance) =
      prev.available_balance + ghead.pending_amount
    rw [if_pos hroot_pos]
  · intro hneg
    have hroot_neg : ¬ 0 < groupTx.amount := by
      intro hpos'
      exact absurd (h1 hpos') (not_lt.mpr (le_of_lt hneg))
    refine ⟨rfl, ?_⟩
    show (if 0 < groupTx.amount then
            prev.available_balance + ghead.pending_amount
          else prev.available_balance) = prev.available_balance
    rw [if_neg hroot_neg]

/-- C3 witness: settling the +100 debit group takes `dbB` to `dbC`. -/
theorem C3_settlement_event_witness :
    ∃ root ghead e t,
      root ∈ dbB.txs ∧ root.id = gD ∧ root.type = .PENDING ∧
      ghead ∈ dbB.txs ∧ ghead.group_tx_id = some gD ∧
      (¬ ∃ x ∈ dbB.txs, x.group_tx_id = some gD ∧
          x.group_prev_tx_id = some ghead.id) ∧
      (¬ ∃ x ∈ dbB.txs, x.type = .SETTLEMENT ∧ x.group_tx_id = some gD) ∧
      e ∈ dbB.txs ∧ e.account_id = root.account_id ∧
      (¬ ∃ x ∈ dbB.txs, x.prev_tx_id = some e.id) ∧
      t.prev_tx_id = some e.id ∧ dbC.txs = dbB.txs ++ [t] ∧ sC = t.id ∧
      t.type = .SETTLEMENT ∧ t.amount = ghead.pending_amount ∧
      t.pending_amount = ghead.pending_amount ∧
      (0 < ghead.pending_amount →
        t.current_balance = e.current_balance + ghead.pending_amount ∧
        t.available_balance = e.available_balance + ghead.pending_amount) ∧
      (ghead.pending_amount < 0 →
        t.current_balance = e.current_balance + ghead.pending_amount ∧
        t.available_balance = e.available_balance) :=
  @C3_settlement_event dbB gD 102 none sC dbC reach_dbB (by decide)

/-- C4 (amended): `refund_pending_transaction` fails — persisting nothing —
with the zero-amount assertion or the positive-amount ValueError when
`amount ≤ 0`; with the credit-only ValueError when the group root is not a
credit (`0 ≤ root.amount`); and with the store's
`tx_refund_reduces_pending_amount` violation when
`group_prev_pending_amount + amount` would exceed zero.  Every successful
call appends a REFUND with `pending_amount = group_prev_pending_amount +
amount`, the available balance increased by `amount` and the current
balance unchanged.  (Unlike the original claim, passing those three checks
does not guarantee success: the store's `available ≤ current` balance check
can still reject the append, as on an already-settled group.) -/
theorem C4_refund_rules :
    (∀ (db : Db) (gid : TxId) (amount : Money) (k : Nat) (p? : Option TxId),
      amount ≤ 0 →
      refundPendingTransaction db gid amount k p? =
          .error .zeroRefundAssert ∨
      refundPendingTransaction db gid amount k p? =
          .error .invalidRefundAmount) ∧
    (∀ (db : Db) (gid : TxId) (amount : Money) (k : Nat) (p? : Option TxId)
       (root prev : Tx), 0 < amount →
      db.txs.find? (fun t => decide (t.id = gid)) = some root →
      root.type = .PENDING → 0 ≤ root.amount →
      resolvePrev db root.account_id p? = .ok prev →
      refundPendingTransaction db gid amount k p? =
        .error .refundNotCredit) ∧
    (∀ (db : Db) (gid : TxId) (amount : Money) (k : Nat) (p? : Option TxId)
       (root prev ghead : Tx), 0 < amount →
      db.txs.find? (fun t => decide (t.id = gid)) = some root →
      root.type = .PENDING → root.amount < 0 →
      resolvePrev db root.account_id p? = .ok prev →
      getLatestGroupTransaction db root = some ghead →
      0 < ghead.pending_amount + amount →
      ∃ vs, refundPendingTransaction db gid amount k p? =
          .error (.integrity vs) ∧
        "tx_refund_reduces_pending_amount" ∈ vs) ∧
    (∀ (db : Db) (gid : TxId) (amount : Money) (k : Nat) (p? : Option TxId)
       (r : TxId) (db' : Db),
      refundPendingTransaction db gid amount k p? = .ok (r, db') →
      ∃ t e, db'.txs = db.txs ++ [t] ∧ r = t.id ∧ t.type = .REFUND ∧
        t.amount = amount ∧ 0 < amount ∧
        t.pending_amount = t.group_prev_pending_amount + amount ∧
        e ∈ db.txs ∧ t.prev_tx_id = some e.id ∧
        (¬ ∃ x ∈ db.txs, x.prev_tx_id = some e.id) ∧
        t.current_balance = e.current_balance ∧
        t.available_balance = e.available_balance + amount) := by
  refine ⟨?_, ?_, ?_, ?_⟩
  · intro db gid amount k p? hle
    unfold refundPendingTransaction
    by_cases hz : amount = 0
    · rw [if_pos hz]
      exact Or.inl rfl
    · rw [if_neg hz, if_pos hle]
      exact Or.inr rfl
  · intro db gid amount k p? root prev hpos hfind hty hge hres
    unfold refundPendingTransaction
    rw [if_neg (ne_of_gt hpos), if_neg (not_le.mpr hpos)]
    simp only [hfind]
    rw [if_neg (not_not_intro hty)]
    simp only [hres]
    rw [if_pos (not_lt.mpr hge)]
  · intro db gid amount k p? root prev ghead hpos hfind hty hcred hres hglt
      hover
    unfold refundPendingTransaction
    rw [if_neg (ne_of_gt hpos), if_neg (not_le.mpr hpos)]
    simp only [hfind]
    rw [if_neg (not_not_intro hty)]
    simp only [hres]
    rw [if_neg (not_not_intro hcred)]
    simp only [hglt]
    have hmem : "tx_refund_reduces_pending_amount" ∈
        txViolations db (refundTx prev ghead root amount k) := by
      refine mem_txViolations
        (c := ("tx_refund_reduces_pending_amount",
          decide ((refundTx prev ghead root amount k).type = .REFUND ∧
            ¬(0 < (refundTx prev ghead root amount k).amount ∧
              (refundTx prev ghead root amount k).pending_amount ≤ 0 ∧
              (refundTx prev ghead root amount k).pending_amount =
                (refundTx prev ghead root amount k).group_prev_pending_amount +
                  (refundTx prev ghead root amount k).amount))))
        (by simp [txChecks]) ?_
      refine decide_eq_true ⟨rfl, ?_⟩
      rintro ⟨-, hple, -⟩
      exact absurd hple (not_le.mpr hover)
    exact ⟨_, finishInsert_error_of_mem hmem, hmem⟩
  · intro db gid amount k p? r db' h
    obtain ⟨hpos, groupTx, prev, ghead, hfind, hty, hcred, hres, hglt, hv,
            hrid, hd⟩ := refund_ok h
    have hunref : ¬ ∃ x ∈ db.txs, x.prev_tx_id = some prev.id := by
      rintro ⟨x, hx, hxp⟩
      exact checks_prev_unique hv (fun hc => Option.noConfusion hc) x hx
        (by rw [hxp]; rfl)
    exact ⟨refundTx prev ghead groupTx amount k, prev, by rw [hd], hrid,
           rfl, rfl, hpos, rfl, resolvePrev_mem hres, rfl, hunref, rfl, rfl⟩

/-- The root PENDING of the −50 credit group in `dbG`. -/
def rootG : Tx := (dbG.txs.find? (fun t => decide (t.id = gC))).getD dummyTx

/-- The account head of `dbG` as its own resolved predecessor. -/
def prevG : Tx := (resolvePrev dbG rootG.account_id none).toOption.getD dummyTx

/-- The group head of the −50 credit group in `dbG`. -/
def gheadG : Tx := (getLatestGroupTransaction dbG rootG).getD dummyTx

/-- The refund that the C4 witness shows succeeding. -/
def stepW : Except Err (TxId × Db) := refundPendingTransaction dbG gC 20 113 none

/-- C4 witness: on the open −50 credit group of `dbG`, an over-refund of 60
is rejected by the store's refund constraint, while a refund of 20 succeeds
and appends a REFUND with the stated fields. -/
theorem C4_refund_rules_witness :
    (∃ vs, refundPendingTransaction dbG gC 60 114 none =
        .error (.integrity vs) ∧
      "tx_refund_reduces_pending_amount" ∈ vs) ∧
    (∃ t e, (resDb stepW dbG).txs = dbG.txs ++ [t] ∧ resId stepW = t.id ∧
      t.type = .REFUND ∧ t.amount = 20 ∧ (0 : Money) < 20 ∧
      t.pending_amount = t.group_prev_pending_amount + 20 ∧
      e ∈ dbG.txs ∧ t.prev_tx_id = some e.id ∧
      (¬ ∃ x ∈ dbG.txs, x.prev_tx_id = some e.id) ∧
      t.current_balance = e.current_balance ∧
      t.available_balance = e.available_balance + 20) :=
  ⟨C4_refund_rules.2.2.1 dbG gC 60 114 none rootG prevG gheadG (by decide)
     (by decide) (by decide) (by decide) (by decide) (by decide) (by decide),
   C4_refund_rules.2.2.2 dbG gC 20 113 none (resId stepW) (resDb stepW dbG)
     (by decide)⟩

/-- The root PENDING of the (settled) −50 credit group in `dbH`. -/
def rootH : Tx := (dbH.txs.find? (fun t => decide (t.id = gC))).getD dummyTx

/-- The group head of the settled −50 credit group in `dbH` (its
SETTLEMENT). -/
def gheadH : Tx := (getLatestGroupTransaction dbH rootH).getD dummyTx

/-- C4 counterexample to the original claim: in `dbH` the −50 credit group
is already settled (balances (50, 50)); a refund of 20 is not barred by any
of the claim's three conditions — the amount is positive, the root is a
credit, and the group head's pending amount −50 plus 20 stays below zero —
yet the call fails (with the store's `available ≤ current` check) instead
of appending the claimed REFUND. -/
theorem C4_counterexample :
    dbH.txs.find? (fun t => decide (t.id = gC)) = some rootH ∧
    rootH.type = .PENDING ∧ rootH.amount = -50 ∧
    getLatestGroupTransaction dbH rootH = some gheadH ∧
    gheadH.pending_amount = -50 ∧ (0 : Money) < 20 ∧
    gheadH.pending_amount + 20 ≤ 0 ∧
    refundPendingTransaction dbH gC 20 112 none =
      .error (.integrity ["tx_available_always_lt_current"]) := by decide

/-- The refund appended to the CLOSED group `gA` of `dbF` (the C5 bug). -/
def stepBug : Except Err (TxId × Db) :=
  refundPendingTransaction dbF gA 20 107 none

/-- C5 (code bug): in `dbF` the −30 credit group `gA` already contains a
SETTLEMENT, so the group is closed; a second `settle_transaction` is indeed
rejected by the one-settlement-per-group index, but a
`refund_pending_transaction` against the closed group passes every store
constraint and appends a REFUND — contradicting the source's own comment
("The settlement tx of a group closes the group from further alterations",
db.py lines 64-72) and the spec's `Closed → *: all appends rejected`. -/
theorem C5_closed_group_bug :
    (∃ x ∈ dbF.txs, x.group_tx_id = some gA ∧ x.type = .SETTLEMENT) ∧
    settleTransaction dbF gA 106 none =
      .error (.integrity ["tx_only_one_settlement_per_pending"]) ∧
    stepBug = .ok (resId stepBug, resDb stepBug dbF) ∧
    ((resDb stepBug dbF).txs.getLastD dummyTx).type = .REFUND ∧
    ((resDb stepBug dbF).txs.getLastD dummyTx).group_tx_id = some gA := by
  decide

/-- The SETTLEMENT event of the +100 debit group (last event of `dbC`). -/
def sTx : Tx := dbC.txs.getLastD dummyTx

/-- C6 (code bug): the serialization fed to SHA-256 contains the eleven
always-present fields, but `group_tx_id` is absent even for a SETTLEMENT
(and likewise for a REFUND): the statement at db.py:239-240 binds a local
variable instead of adding the key to the hashed dictionary. -/
theorem C6_hash_omits_group_tx_id :
    sTx.type = .SETTLEMENT ∧
    (∀ key ∈ ["idempotency_key", "account_id", "type", "amount",
        "pending_amount", "prev_tx_id", "group_prev_tx_id",
        "prev_current_balance", "prev_available_balance",
        "current_balance", "available_balance"],
      key ∈ (txHashData sTx).map Prod.fst) ∧
    "group_tx_id" ∉ (txHashData sTx).map Prod.fst := by decide

/-- C10: a `create_pending_transaction` with amount 0 — which the sign
convention classifies as neither debit nor credit — succeeds whenever the
account exists, the idempotency key is fresh and the resolved predecessor is
the account head: the appended PENDING has `pending_amount = 0` and both
balances equal to the predecessor's, and the InsufficientFunds check cannot
fire because the head's available balance is non-negative in every
reachable state. -/
theorem C10_zero_amount_pending {db : Db} {aid k : Nat} {p? : Option TxId}
    {e : Tx} (hreach : Reachable db)
    (hres : resolvePrev db aid p? = .ok e)
    (hhead : ¬ ∃ x ∈ db.txs, x.prev_tx_id = some e.id)
    (hacct : e.account_id = aid)
    (haccount : ∃ a ∈ db.accounts, a.id = aid)
    (hkey : ∀ x ∈ db.txs, x.idempotency_key ≠ k) :
    createPendingTransaction db aid 0 k p? =
      .ok ((pendingTx e aid 0 k).id,
        { db with txs := db.txs ++ [pendingTx e aid 0 k] }) ∧
    (pendingTx e aid 0 k).pending_amount = 0 ∧
    (pendingTx e aid 0 k).amount = 0 ∧
    (pendingTx e aid 0 k).type = .PENDING ∧
    (pendingTx e aid 0 k).current_balance = e.current_balance ∧
    (pendingTx e aid 0 k).available_balance = e.available_balance := by
  have hinv := reachable_inv hreach
  have hmem := resolvePrev_mem hres
  have hbal : 0 ≤ e.available_balance ∧
      e.available_balance ≤ e.current_balance := hinv.1 e hmem
  have hv : txViolations db (pendingTx e aid 0 k) = [] := by
    rw [txViolations_nil_iff]
    intro c hc
    simp only [txChecks, List.mem_cons, List.not_mem_nil, or_false] at hc
    rcases hc with rfl | rfl | rfl | rfl | rfl | rfl | rfl | rfl | rfl |
      rfl | rfl | rfl | rfl | rfl | rfl | rfl | rfl | rfl | rfl | rfl |
      rfl | rfl | rfl
    · refine List.any_eq_false.mpr fun x hx hxd => ?_
      have hxe : x.id = (pendingTx e aid 0 k).id := of_decide_eq_true hxd
      rw [hinv.2.2.1 x hx] at hxe
      simp only [txHashOf, pendingTx, pendingTx0, TxId.mk.injEq] at hxe
      exact hkey x hx hxe.1
    · exact List.any_eq_false.mpr fun x hx hxd =>
        hkey x hx (of_decide_eq_true hxd)
    · have h2 : db.txs.any (fun x =>
          decide (x.prev_tx_id = (pendingTx e aid 0 k).prev_tx_id)) =
            false :=
        List.any_eq_false.mpr fun x hx hxd =>
          hhead ⟨x, hx, of_decide_eq_true hxd⟩
      show (decide ((pendingTx e aid 0 k).prev_tx_id ≠ none) &&
        db.txs.any (fun x => decide
          (x.prev_tx_id = (pendingTx e aid 0 k).prev_tx_id))) = false
      rw [h2, Bool.and_false]
    · obtain ⟨a, ha, haid⟩ := haccount
      show (!(db.accounts.any (fun a =>
        decide (a.id = (pendingTx e aid 0 k).account_id)))) = false
      rw [List.any_eq_true.mpr ⟨a, ha, decide_eq_true haid⟩]
      rfl
    · show (!(db.txs.any (fun x =>
        decide (x.account_id = (pendingTx e aid 0 k).account_id ∧
          x.id = e.id)))) = false
      rw [List.any_eq_true.mpr ⟨e, hmem, decide_eq_true ⟨hacct, rfl⟩⟩]
      rfl
    · rfl
    · rfl
    · show (!(db.txs.any (fun x => decide (x.id = e.id ∧
        x.current_balance = (pendingTx e aid 0 k).prev_current_balance ∧
        x.available_balance =
          (pendingTx e aid 0 k).prev_available_balance)))) = false
      rw [List.any_eq_true.mpr ⟨e, hmem, decide_eq_true ⟨rfl, rfl, rfl⟩⟩]
      rfl
    · rfl
    · rfl
    · rfl
    · rfl
    · rfl
    · exact decide_eq_false (not_lt.mpr (le_trans hbal.1 hbal.2))
    · exact decide_eq_false (not_lt.mpr hbal.1)
    · exact decide_eq_false (not_lt.mpr hbal.2)
    · rfl
    · rfl
    · rfl
    · rfl
    · rfl
    · rfl
    · rfl
  have havail : (pendingTx e aid 0 k).available_balance =
      e.available_balance := rfl
  refine ⟨?_, rfl, rfl, rfl, rfl, havail⟩
  unfold createPendingTransaction
  simp only [hres]
  rw [if_neg (show ¬ (pendingTx0 e aid 0 k).available_balance < 0 from
        not_lt.mpr hbal.1)]
  unfold finishInsert insertTx
  rw [hv]

/-- The account head of `dbC` as its own resolved predecessor. -/
def headC : Tx := (resolvePrev dbC 1 none).toOption.getD dummyTx

/-- C10 witness: a zero-amount pending on the concrete state `dbC`. -/
theorem C10_zero_amount_pending_witness :
    createPendingTransaction dbC 1 0 301 none =
      .ok ((pendingTx headC 1 0 301).id,
        { dbC with txs := dbC.txs ++ [pendingTx headC 1 0 301] }) ∧
    (pendingTx headC 1 0 301).pending_amount = 0 ∧
    (pendingTx headC 1 0 301).amount = 0 ∧
    (pendingTx headC 1 0 301).type = .PENDING ∧
    (pendingTx headC 1 0 301).current_balance = headC.current_balance ∧
    (pendingTx headC 1 0 301).available_balance = headC.available_balance :=
  @C10_zero_amount_pending dbC 1 301 none headC reach_dbC (by decide)
    (by decide) (by decide) (by decide) (by decide)

end Ktti
